import Mathlib

set_option maxHeartbeats 1000000
set_option maxRecDepth 8192

namespace ImageBuilder

/-!
Shallow embedding of the swe_docker two-step validator
(src/swe_docker/validator.py) and of the layered image builder
(src/swe_docker/builder.py), plus the r2e_docker shell gateway
(src/r2e_docker/shell.py).

Python strings are Lean Strings (lists of characters); Python dicts built
by sequential insertion are association lists whose lookup takes the last
matching entry; the Docker engine and the container are modelled by an
explicit environment record (the observed outcome of each external call),
and the side effects of a validation run are recorded as an action trace.
-/

/-! ## String helpers mirroring the Python ones -/

def ESC : Char := Char.ofNat 27

def isCSIParam (c : Char) : Bool := c.isDigit || c == ';'

/-- One step of the deletion state machine for the regex x1b[[0-9;]*m used by
the `_ansi_escape` helper of validator.py. The second component is the pending
partial match (empty, a lone escape, or an escape-bracket-parameters run). -/
def ansiStep (acc : List Char × List Char) (c : Char) : List Char × List Char :=
  match acc with
  | (out, []) =>
      if c = ESC then (out, [ESC]) else (out ++ [c], [])
  | (out, [e]) =>
      if c = '[' then (out, [e, '['])
      else if c = ESC then (out ++ [e], [ESC])
      else (out ++ [e, c], [])
  | (out, pend) =>
      if c = 'm' then (out, [])
      else if isCSIParam c then (out, pend ++ [c])
      else if c = ESC then (out ++ pend, [ESC])
      else (out ++ pend ++ [c], [])

/-- `_ansi_escape` of validator.py: remove every occurrence of the control
sequence pattern from the text. At end of input a pending partial match is
emitted unchanged, as `re.sub` leaves unmatched text alone. -/
def stripAnsi (s : String) : String :=
  let r := s.data.foldl ansiStep ([], [])
  String.mk (r.1 ++ r.2)

/-- Python `str.splitlines` restricted to the newline conventions the eval
output can contain: a carriage-return/linefeed pair, a lone carriage return,
or a lone linefeed each end a line. -/
def pySplitlinesAux : List Char → List Char → List String
  | '\r' :: '\n' :: rest, cur => String.mk cur :: pySplitlinesAux rest []
  | '\r' :: rest, cur => String.mk cur :: pySplitlinesAux rest []
  | '\n' :: rest, cur => String.mk cur :: pySplitlinesAux rest []
  | c :: rest, cur => pySplitlinesAux rest (cur ++ [c])
  | [], cur => if cur = [] then [] else [String.mk cur]

def pySplitlines (s : String) : List String :=
  pySplitlinesAux s.data []

/-- The whitespace class of Python `str.strip` and of the regex class \s,
restricted to ASCII. -/
def pyIsSpace (c : Char) : Bool :=
  c == ' ' || c == '\t' || c == '\n' || c == '\r' ||
  c == Char.ofNat 11 || c == Char.ofNat 12

/-- Python `str.strip()`. -/
def pyStrip (s : String) : String :=
  String.mk (((s.data.dropWhile pyIsSpace).reverse.dropWhile pyIsSpace).reverse)

/-- Python substring test `sub in hay`. -/
def listContainsSub (hay sub : List Char) : Bool :=
  (List.range (hay.length + 1)).any (fun i => sub.isPrefixOf (hay.drop i))

def strContains (hay sub : String) : Bool :=
  listContainsSub hay.data sub.data

/-! ## Test output parsing (parse_log of validator.py) -/

/-- Modelled from the spec: the sentinel constants live in
swe_docker/constants.py, which is not part of the sources given; section 6 of
the spec fixes them as printable strings named START_TEST_OUTPUT and
END_TEST_OUTPUT, printed by the eval script around the test output. -/
def START_TEST_OUTPUT : String := "START_TEST_OUTPUT"

/-- Modelled from the spec: see `START_TEST_OUTPUT`. -/
def END_TEST_OUTPUT : String := "END_TEST_OUTPUT"

/-- The pytest fallback marker used by parse_log when the sentinels are
absent. -/
def FALLBACK_MARKER : String := "short test summary info"

/-- The scan for the sentinel region of parse_log: the start index keeps
being overwritten by later START lines until an END line breaks the loop. -/
def findRegionAux : List String → Nat → Option Nat → Option Nat × Option Nat
  | [], _, s => (s, none)
  | l :: rest, i, s =>
      let s' := if strContains l START_TEST_OUTPUT then some (i + 1) else s
      if strContains l END_TEST_OUTPUT then (s', some i)
      else findRegionAux rest (i + 1) s'

/-- The fallback scan of parse_log: first line containing the pytest
summary marker. -/
def findFallbackAux : List String → Nat → Option Nat
  | [], _ => none
  | l :: rest, i =>
      if strContains l FALLBACK_MARKER then some (i + 1)
      else findFallbackAux rest (i + 1)

/-- The region slice `lines[start_idx:end_idx] if end_idx else
lines[start_idx:]` - note the Python truthiness test, under which an end
index of zero selects the unbounded slice. -/
def sliceRegion (lines : List String) (s : Nat) : Option Nat → List String
  | some e => if e = 0 then lines.drop s else (lines.drop s).take (e - s)
  | none => lines.drop s

/-- The leading alternation (PASSED|FAILED|ERROR) of the status regex. -/
def statusWord (cs : List Char) : Option (String × List Char) :=
  if "PASSED".data.isPrefixOf cs then some ("PASSED", cs.drop 6)
  else if "FAILED".data.isPrefixOf cs then some ("FAILED", cs.drop 6)
  else if "ERROR".data.isPrefixOf cs then some ("ERROR", cs.drop 5)
  else none

/-- Anchored match of the regex (PASSED|FAILED|ERROR) then one or more
whitespace characters then a maximal nonempty run of non-whitespace, the
last run captured as the test id. -/
def matchStatusLine (s : String) : Option (String × String) :=
  match statusWord s.data with
  | none => none
  | some (st, rest) =>
      let ws := rest.takeWhile pyIsSpace
      let rest2 := rest.dropWhile pyIsSpace
      let tid := rest2.takeWhile (fun c => !(pyIsSpace c))
      if ws = [] then none
      else if tid = [] then none
      else some (st, String.mk tid)

/-- ERROR is normalised to FAILED before insertion. -/
def normalizeStatus (st : String) : String :=
  if st = "ERROR" then "FAILED" else st

/-- One line of the region: strip, skip when empty, then the status match;
yields the dict entry (test id, normalised status) when the line matches. -/
def lineEntry (line : String) : Option (String × String) :=
  if pyStrip line = "" then none
  else
    match matchStatusLine (pyStrip line) with
    | some (st, tid) => some (tid, normalizeStatus st)
    | none => none

/-- The insertion sequence of the results dict, in region order. -/
def parseStatusLines : List String → List (String × String)
  | [] => []
  | l :: rest =>
      match lineEntry l with
      | some e => e :: parseStatusLines rest
      | none => parseStatusLines rest

/-- Lookup in a dict built by sequential insertion: the last inserted entry
for a key wins, exactly as Python dict assignment overwrites. -/
def dictGet : List (String × String) → String → Option String
  | [], _ => none
  | e :: rest, k =>
      match dictGet rest k with
      | some v => some v
      | none => if e.1 = k then some e.2 else none

/-- The start index parse_log settles on: the sentinel scan first, then the
pytest fallback. -/
def parseStartIdx (lines : List String) : Option Nat :=
  match (findRegionAux lines 0 none).1 with
  | some i => some i
  | none => findFallbackAux lines 0

/-- parse_log of validator.py, returning the insertion sequence of the
results dict (use `dictGet` for dict lookup and emptiness of the list for
dict emptiness - both agree with the Python dict). -/
def parse_log (raw : String) : List (String × String) :=
  let lines := pySplitlines (stripAnsi raw)
  match parseStartIdx lines with
  | none => []
  | some s => parseStatusLines (sliceRegion lines s (findRegionAux lines 0 none).2)

/-- The region of lines parse_log actually parses (empty when no start
marker is found). -/
def parsedRegion (raw : String) : List String :=
  let lines := pySplitlines (stripAnsi raw)
  match parseStartIdx lines with
  | none => []
  | some s => sliceRegion lines s (findRegionAux lines 0 none).2

/-- The normalised status of the last line of the region that matches the
status regex with the given test id. -/
def lastStatusInRegion : List String → String → Option String
  | [], _ => none
  | l :: rest, id =>
      match lastStatusInRegion rest id with
      | some v => some v
      | none =>
          match lineEntry l with
          | some (tid, st) => if tid = id then some st else none
          | none => none

/-! ## The ValidationResult record and the two-step validator -/

/-- ValidationResult of validator.py, field for field, with the same
defaults. -/
structure ValidationResult where
  passed : Bool
  reason : String
  pre_f2p_correct : Nat := 0
  pre_f2p_wrong : Nat := 0
  pre_p2p_correct : Nat := 0
  pre_p2p_wrong : Nat := 0
  post_f2p_correct : Nat := 0
  post_f2p_wrong : Nat := 0
  post_p2p_correct : Nat := 0
  post_p2p_wrong : Nat := 0
  pre_raw : String := ""
  post_raw : String := ""
  details : List String := []
deriving DecidableEq

/-- The fields of InstanceSpec that validate_image reads. -/
structure VSpec where
  instance_image_key : String
  platform_str : String
  fail_to_pass : List String
  pass_to_pass : List String
  eval_script : String
  patch : String
deriving DecidableEq

/-- Outcome of one `_exec_in_container` call: the decoded stream and the
timeout flag. -/
structure ExecOutcome where
  output : String
  timed_out : Bool
deriving DecidableEq

/-- Outcome of one `container.exec_run` call. -/
structure ExecRunOutcome where
  exit_code : Int
  output : String
deriving DecidableEq

/-- The environment of one validation run: the observed outcome of each
external call validate_image can make, in program order. -/
structure RunWorld where
  preEval : ExecOutcome
  applyGit : ExecRunOutcome
  applyGitReject : ExecRunOutcome
  applyPatchCmd : ExecRunOutcome
  postEval : ExecOutcome
deriving DecidableEq

/-- The container and engine operations validate_image performs, recorded
as a trace. -/
inductive DockerAction where
  | createContainer (image : String)
  | startContainer
  | writeScript (path : String)
  | execCmd (cmd : String)
  | execRun (cmd : String)
  | stopContainer
  | removeContainer
deriving DecidableEq

def GIT_APPLY_CMD : String :=
  "bash -c \x27cd /testbed && git apply -v /tmp/gold_patch.diff\x27"

def GIT_APPLY_REJECT_CMD : String :=
  "bash -c \x27cd /testbed && git apply -v --reject /tmp/gold_patch.diff\x27"

def PATCH_FUZZ_CMD : String :=
  "bash -c \x27cd /testbed && patch --batch --fuzz=5 -p1 -i /tmp/gold_patch.diff\x27"

/-- Pre-patch F2P loop of validate_image: (correct, wrong, details).
A missing status counts as wrong, a present non-PASSED status as correct. -/
def classify_pre_f2p (get : String → Option String) : List String → Nat × Nat × List String
  | [] => (0, 0, [])
  | tid :: rest =>
      let r := classify_pre_f2p get rest
      match get tid with
      | none => (r.1, r.2.1 + 1, s!"PRE F2P missing: {tid}" :: r.2.2)
      | some st =>
          if !(st == "PASSED") then (r.1 + 1, r.2.1, r.2.2)
          else (r.1, r.2.1 + 1, s!"PRE F2P unexpectedly PASSED: {tid}" :: r.2.2)

/-- Pre-patch P2P loop of validate_image. -/
def classify_pre_p2p (get : String → Option String) : List String → Nat × Nat × List String
  | [] => (0, 0, [])
  | tid :: rest =>
      let r := classify_pre_p2p get rest
      match get tid with
      | none => (r.1, r.2.1 + 1, s!"PRE P2P missing: {tid}" :: r.2.2)
      | some st =>
          if st == "PASSED" then (r.1 + 1, r.2.1, r.2.2)
          else (r.1, r.2.1 + 1, s!"PRE P2P unexpectedly FAILED: {tid}" :: r.2.2)

/-- Post-patch F2P loop of validate_image. -/
def classify_post_f2p (get : String → Option String) : List String → Nat × Nat × List String
  | [] => (0, 0, [])
  | tid :: rest =>
      let r := classify_post_f2p get rest
      match get tid with
      | none => (r.1, r.2.1 + 1, s!"POST F2P missing: {tid}" :: r.2.2)
      | some st =>
          if st == "PASSED" then (r.1 + 1, r.2.1, r.2.2)
          else (r.1, r.2.1 + 1, s!"POST F2P still FAILED: {tid}" :: r.2.2)

/-- Post-patch P2P loop of validate_image. -/
def classify_post_p2p (get : String → Option String) : List String → Nat × Nat × List String
  | [] => (0, 0, [])
  | tid :: rest =>
      let r := classify_post_p2p get rest
      match get tid with
      | none => (r.1, r.2.1 + 1, s!"POST P2P missing: {tid}" :: r.2.2)
      | some st =>
          if st == "PASSED" then (r.1 + 1, r.2.1, r.2.2)
          else (r.1, r.2.1 + 1, s!"POST P2P unexpectedly FAILED: {tid}" :: r.2.2)

/-- The tail of validate_image from the second eval run (after the gold
patch has been applied): timeout check, parse, post-patch classification,
the step-2 gate, and the success return. The pre-patch counts, details and
raw output are passed through, as are the trace accumulated so far and the
cleanup actions of the finally block. -/
def validate_post (f2p_tests p2p_tests : List String) (timeout : Nat)
    (pre_f2p_correct pre_p2p_correct : Nat) (details : List String)
    (pre_output : String) (w : RunWorld)
    (tracePrefix cleanup : List DockerAction) :
    ValidationResult × List DockerAction :=
  let trace := tracePrefix ++ [DockerAction.execCmd "bash /root/eval.sh"]
  if w.postEval.timed_out then
    ({ passed := false,
       reason := s!"post-patch eval timed out after {timeout}s",
       pre_f2p_correct := pre_f2p_correct,
       pre_p2p_correct := pre_p2p_correct,
       pre_raw := pre_output,
       post_raw := s!"TIMEOUT after {timeout}s",
       details := details }, trace ++ cleanup)
  else
    let post_output := w.postEval.output
    let post_results := parse_log post_output
    if post_results = [] then
      ({ passed := false,
         reason := "could not parse post-patch test output",
         pre_f2p_correct := pre_f2p_correct,
         pre_p2p_correct := pre_p2p_correct,
         pre_raw := pre_output,
         post_raw := post_output,
         details := details }, trace ++ cleanup)
    else
      let getPost := dictGet post_results
      let rf := classify_post_f2p getPost f2p_tests
      let rp := classify_post_p2p getPost p2p_tests
      let post_f2p_wrong := rf.2.1
      let post_p2p_wrong := rp.2.1
      let details2 := details ++ rf.2.2 ++ rp.2.2
      if post_f2p_wrong = 0 ∧ post_p2p_wrong = 0 then
        ({ passed := true,
           reason := "all checks passed (both pre-patch and post-patch)",
           pre_f2p_correct := pre_f2p_correct,
           pre_p2p_correct := pre_p2p_correct,
           post_f2p_correct := rf.1,
           post_p2p_correct := rp.1,
           pre_raw := pre_output,
           post_raw := post_output,
           details := details2 }, trace ++ cleanup)
      else
        let reasons :=
          (if post_f2p_wrong ≠ 0 then
             [s!"{post_f2p_wrong} F2P tests did not pass post-patch"] else []) ++
          (if post_p2p_wrong ≠ 0 then
             [s!"{post_p2p_wrong} P2P tests did not pass post-patch"] else [])
        ({ passed := false,
           reason := "step 2 (post-patch) failed: " ++ String.intercalate "; " reasons,
           pre_f2p_correct := pre_f2p_correct,
           pre_p2p_correct := pre_p2p_correct,
           post_f2p_correct := rf.1,
           post_f2p_wrong := post_f2p_wrong,
           post_p2p_correct := rp.1,
           post_p2p_wrong := post_p2p_wrong,
           pre_raw := pre_output,
           post_raw := post_output,
           details := details2 }, trace ++ cleanup)

/-- validate_image of validator.py. Python set(list) is modelled by list
dedup: emptiness, membership and the classification counts agree with the
Python set, and only the (unspecified) set iteration order of the detail
strings is fixed arbitrarily. The returned trace lists the engine calls of
the run; the finally block always appends the stop and remove actions once
the container has been created. -/
def validate_image (spec : VSpec) (timeout : Nat) (w : RunWorld) :
    ValidationResult × List DockerAction :=
  let image_name := spec.instance_image_key
  let f2p_tests := spec.fail_to_pass.dedup
  let p2p_tests := spec.pass_to_pass.dedup
  let gold_patch := spec.patch
  if f2p_tests = [] then
    ({ passed := false, reason := "no FAIL_TO_PASS tests defined" }, [])
  else
    let setup : List DockerAction :=
      [DockerAction.createContainer image_name, DockerAction.startContainer,
       DockerAction.writeScript "/root/eval.sh",
       DockerAction.execCmd "bash /root/eval.sh"]
    let cleanup : List DockerAction :=
      [DockerAction.stopContainer, DockerAction.removeContainer]
    if w.preEval.timed_out then
      ({ passed := false,
         reason := s!"pre-patch eval timed out after {timeout}s",
         pre_raw := s!"TIMEOUT after {timeout}s" }, setup ++ cleanup)
    else
      let pre_output := w.preEval.output
      let pre_results := parse_log pre_output
      if pre_results = [] then
        ({ passed := false,
           reason := "could not parse pre-patch test output",
           pre_raw := pre_output }, setup ++ cleanup)
      else
        let getPre := dictGet pre_results
        let rf := classify_pre_f2p getPre f2p_tests
        let rp := classify_pre_p2p getPre p2p_tests
        let pre_f2p_wrong := rf.2.1
        let pre_p2p_wrong := rp.2.1
        let details := rf.2.2 ++ rp.2.2
        if pre_f2p_wrong = 0 ∧ pre_p2p_wrong = 0 then
          if gold_patch = "" then
            ({ passed := false,
               reason := "no gold patch available for step 2",
               pre_f2p_correct := rf.1,
               pre_p2p_correct := rp.1,
               pre_raw := pre_output,
               details := details }, setup ++ cleanup)
          else
            let t1 := setup ++
              [DockerAction.writeScript "/tmp/gold_patch.diff",
               DockerAction.execRun GIT_APPLY_CMD]
            if w.applyGit.exit_code ≠ 0 then
              let t2 := t1 ++ [DockerAction.execRun GIT_APPLY_REJECT_CMD]
              if w.applyGitReject.exit_code ≠ 0 then
                let t3 := t2 ++ [DockerAction.execRun PATCH_FUZZ_CMD]
                if w.applyPatchCmd.exit_code ≠ 0 then
                  ({ passed := false,
                     reason := "could not apply gold patch: " ++
                       (w.applyPatchCmd.output.take 500),
                     pre_f2p_correct := rf.1,
                     pre_p2p_correct := rp.1,
                     pre_raw := pre_output,
                     details := details }, t3 ++ cleanup)
                else
                  validate_post f2p_tests p2p_tests timeout rf.1 rp.1 details
                    pre_output w t3 cleanup
              else
                validate_post f2p_tests p2p_tests timeout rf.1 rp.1 details
                  pre_output w t2 cleanup
            else
              validate_post f2p_tests p2p_tests timeout rf.1 rp.1 details
                pre_output w t1 cleanup
        else
          let reasons :=
            (if pre_f2p_wrong ≠ 0 then
               [s!"{pre_f2p_wrong} F2P tests did not fail pre-patch"] else []) ++
            (if pre_p2p_wrong ≠ 0 then
               [s!"{pre_p2p_wrong} P2P tests did not pass pre-patch"] else [])
          ({ passed := false,
             reason := "step 1 (pre-patch) failed: " ++ String.intercalate "; " reasons,
             pre_f2p_correct := rf.1,
             pre_f2p_wrong := pre_f2p_wrong,
             pre_p2p_correct := rp.1,
             pre_p2p_wrong := pre_p2p_wrong,
             pre_raw := pre_output,
             details := details }, setup ++ cleanup)

/-! ## Distinguished predicates for the classification counts -/

/-- The code-side pre-patch F2P correctness predicate of validator.py lines
280-281: a present status that is not PASSED. -/
def preF2PCorrectP (get : String → Option String) (tid : String) : Bool :=
  match get tid with
  | none => false
  | some st => !(st == "PASSED")

/-- The code-side pre-patch F2P wrongness predicate of validator.py lines
277-283: the status is missing, or it is PASSED. -/
def preF2PWrongP (get : String → Option String) (tid : String) : Bool :=
  match get tid with
  | none => true
  | some st => st == "PASSED"

/-- The spec-side predicate of claim C2, following the wording of spec step
4: the status is absent or not PASSED. Kept separate from the code-side
predicates so the two can be compared. -/
def preF2PAbsentOrNotPassedP (get : String → Option String) (tid : String) : Bool :=
  match get tid with
  | none => true
  | some st => !(st == "PASSED")

/-- Extract the exec_run command of a trace action, if any. -/
def getExecRun : DockerAction → Option String
  | DockerAction.execRun c => some c
  | _ => none

/-- Spec-side description of the patch retry chain of claim C6: the three
commands are attempted in order, stopping at the first attempt with exit
code zero. -/
def specApplyAttempts (w : RunWorld) : List String :=
  if w.applyGit.exit_code = 0 then [GIT_APPLY_CMD]
  else if w.applyGitReject.exit_code = 0 then [GIT_APPLY_CMD, GIT_APPLY_REJECT_CMD]
  else [GIT_APPLY_CMD, GIT_APPLY_REJECT_CMD, PATCH_FUZZ_CMD]

/-- Some line of the ANSI-stripped output contains a start marker parse_log
accepts: the START sentinel or the pytest fallback marker. -/
def hasParseMarker (raw : String) : Bool :=
  (pySplitlines (stripAnsi raw)).any
    (fun l => strContains l START_TEST_OUTPUT || strContains l FALLBACK_MARKER)

/-! ## Concrete validation inputs used by witnesses and counterexamples -/

/-- A descriptor with one F2P test and one P2P test and a nonempty gold
patch. -/
def passSpec : VSpec :=
  { instance_image_key := "repo_final:abc", platform_str := "linux/x86_64",
    fail_to_pass := ["t1"], pass_to_pass := ["t2"],
    eval_script := "eval", patch := "gold" }

/-- A run in which t1 fails pre-patch, both tests pass post-patch, and the
first git apply succeeds: the validator accepts it. -/
def passWorld : RunWorld :=
  { preEval := { output := "START_TEST_OUTPUT\nFAILED t1\nPASSED t2\nEND_TEST_OUTPUT",
                 timed_out := false },
    applyGit := { exit_code := 0, output := "" },
    applyGitReject := { exit_code := 1, output := "" },
    applyPatchCmd := { exit_code := 1, output := "" },
    postEval := { output := "START_TEST_OUTPUT\nPASSED t1\nPASSED t2\nEND_TEST_OUTPUT",
                  timed_out := false } }

/-- A run whose outputs carry no sentinel at all: parse_log succeeds through
the pytest fallback marker, and the validator accepts the run. -/
def fallbackWorld : RunWorld :=
  { preEval := { output := "short test summary info\nFAILED t1\nPASSED t2",
                 timed_out := false },
    applyGit := { exit_code := 0, output := "" },
    applyGitReject := { exit_code := 1, output := "" },
    applyPatchCmd := { exit_code := 1, output := "" },
    postEval := { output := "short test summary info\nPASSED t1\nPASSED t2",
                  timed_out := false } }

/-- A pre-patch run in which the declared F2P test t1 never appears in the
parsed output (only t2 does). -/
def missingF2PWorld : RunWorld :=
  { preEval := { output := "START_TEST_OUTPUT\nPASSED t2\nEND_TEST_OUTPUT",
                 timed_out := false },
    applyGit := { exit_code := 0, output := "" },
    applyGitReject := { exit_code := 1, output := "" },
    applyPatchCmd := { exit_code := 1, output := "" },
    postEval := { output := "", timed_out := false } }

/-- A run in which step 1 passes and all three patch application attempts
exit nonzero. -/
def applyFailWorld : RunWorld :=
  { preEval := { output := "START_TEST_OUTPUT\nFAILED t1\nPASSED t2\nEND_TEST_OUTPUT",
                 timed_out := false },
    applyGit := { exit_code := 1, output := "git apply stderr" },
    applyGitReject := { exit_code := 1, output := "git apply reject stderr" },
    applyPatchCmd := { exit_code := 1, output := "patch stderr boom" },
    postEval := { output := "", timed_out := false } }

/-- A descriptor with an empty FAIL_TO_PASS list. -/
def emptyF2PSpec : VSpec :=
  { instance_image_key := "repo_final:def", platform_str := "linux/x86_64",
    fail_to_pass := [], pass_to_pass := ["t2"],
    eval_script := "eval", patch := "gold" }

/-- A raw output with two status lines for the same test id inside the
sentinel region. -/
def duplicateIdRaw : String :=
  "START_TEST_OUTPUT\nFAILED a\nPASSED a\nEND_TEST_OUTPUT"

/-! ## Shallow embedding of the layered image builder (builder.py)

The docker daemon is modelled by the list of existing image keys together
with a deterministic build oracle saying which keys build successfully; a
build call on a key is recorded in a call list. The thread pool of
builder.py runs independent builds whose only shared effect is the image
store, so the parallel stages are modelled as folds in submission order;
which partition each spec lands in does not depend on completion order. -/

/-- The fields of InstanceSpec the builder reads. -/
structure BSpec where
  instance_id : String
  base_image_key : String
  env_image_key : String
  instance_image_key : String
deriving DecidableEq

abbrev Images := List String

def imageExists (imgs : Images) (k : String) : Bool := imgs.contains k

def addImage (imgs : Images) (k : String) : Images :=
  if imgs.contains k then imgs else imgs ++ [k]

def removeImage (imgs : Images) (k : String) : Images :=
  imgs.filter (fun x => !(x == k))

/-- Key deduplication in first-seen order (dict insertion order in
builder.py). -/
def uniqueKeysAux (f : BSpec → String) : List String → List BSpec → List String
  | acc, [] => acc
  | acc, s :: rest =>
      if acc.contains (f s) then uniqueKeysAux f acc rest
      else uniqueKeysAux f (acc ++ [f s]) rest

def uniqueKeys (f : BSpec → String) (specs : List BSpec) : List String :=
  uniqueKeysAux f [] specs

/-- The serial base-image loop of build_base_images: skip an existing image
unless force_rebuild, remove before a forced rebuild, abort the whole run
on the first base build failure (the Python code raises). Returns the image
store and the build calls made. -/
def buildBasesLoop (ok : String → Bool) (force : Bool) :
    Images → List String → Except String (Images × List String)
  | imgs, [] => Except.ok (imgs, [])
  | imgs, k :: ks =>
      if imageExists imgs k && !force then buildBasesLoop ok force imgs ks
      else
        let imgs1 := if imageExists imgs k then removeImage imgs k else imgs
        if ok k then
          match buildBasesLoop ok force (addImage imgs1 k) ks with
          | Except.ok (i2, cs) => Except.ok (i2, k :: cs)
          | Except.error m => Except.error m
        else Except.error ("base image build failed: " ++ k)

def build_base_images (ok : String → Bool) (imgs : Images) (specs : List BSpec)
    (force : Bool) : Except String (Images × List String) :=
  buildBasesLoop ok force imgs (uniqueKeys (fun s => s.base_image_key) specs)

/-- The single-threaded planning phase of build_env_images: collect the env
keys to build, skipping keys already planned and, without force_rebuild,
keys whose image exists; with force_rebuild an existing image is removed
and the key planned. Returns the plan and the image store. -/
def envPlanLoop (force : Bool) :
    Images → List String → List BSpec → List String × Images
  | imgs, acc, [] => (acc, imgs)
  | imgs, acc, s :: rest =>
      let k := s.env_image_key
      if acc.contains k then envPlanLoop force imgs acc rest
      else if imageExists imgs k && !force then envPlanLoop force imgs acc rest
      else if imageExists imgs k && force then
        envPlanLoop force (removeImage imgs k) (acc ++ [k]) rest
      else envPlanLoop force imgs (acc ++ [k]) rest

/-- The parallel env build stage: every planned key is built once; a failed
build is recorded in the failed set and adds no image. Returns (images,
failed keys, build calls). -/
def envBuildLoop (ok : String → Bool) :
    Images → List String → Images × List String × List String
  | imgs, [] => (imgs, [], [])
  | imgs, k :: ks =>
      if ok k then
        let r := envBuildLoop ok (addImage imgs k) ks
        (r.1, r.2.1, k :: r.2.2)
      else
        let r := envBuildLoop ok imgs ks
        (r.1, k :: r.2.1, k :: r.2.2)

/-- build_env_images of builder.py: bases first (serial), then the env plan,
then the parallel env builds. Returns (images, failed env keys, calls). -/
def build_env_images (ok : String → Bool) (imgs : Images) (specs : List BSpec)
    (force : Bool) : Except String (Images × List String × List String) :=
  match build_base_images ok imgs specs force with
  | Except.error m => Except.error m
  | Except.ok (imgs1, baseCalls) =>
      let plan := envPlanLoop force imgs1 [] specs
      let r := envBuildLoop ok plan.2 plan.1
      Except.ok (r.1, r.2.1, baseCalls ++ r.2.2)

/-- The parallel instance build stage of build_instance_images: without
force_rebuild an existing instance image short-circuits into the successful
partition with no build call; otherwise the image is built and the spec is
partitioned by the outcome. Returns (successful, failed, images, calls). -/
def instLoop (ok : String → Bool) (force : Bool) :
    Images → List BSpec → List BSpec × List BSpec × Images × List String
  | imgs, [] => ([], [], imgs, [])
  | imgs, s :: rest =>
      if imageExists imgs s.instance_image_key && !force then
        let r := instLoop ok force imgs rest
        (s :: r.1, r.2.1, r.2.2.1, r.2.2.2)
      else if ok s.instance_image_key then
        let r := instLoop ok force (addImage imgs s.instance_image_key) rest
        (s :: r.1, r.2.1, r.2.2.1, s.instance_image_key :: r.2.2.2)
      else
        let r := instLoop ok force imgs rest
        (r.1, s :: r.2.1, r.2.2.1, s.instance_image_key :: r.2.2.2)

/-- The outcome of one build_instance_images run. -/
structure BuildOutcome where
  successful : List BSpec
  failed : List BSpec
  env_failed : List String
  images : Images
  calls : List String
deriving DecidableEq

/-- build_instance_images of builder.py: env images first; specs whose env
key failed are filtered out before the instance stage (they join neither
partition); the rest are partitioned by the instance build outcome. -/
def build_instance_images (ok : String → Bool) (imgs : Images)
    (specs : List BSpec) (force : Bool) : Except String BuildOutcome :=
  match build_env_images ok imgs specs force with
  | Except.error m => Except.error m
  | Except.ok (imgs1, envFailed, calls1) =>
      let specs2 := specs.filter (fun s => !(envFailed.contains s.env_image_key))
      let r := instLoop ok force imgs1 specs2
      Except.ok { successful := r.1, failed := r.2.1, env_failed := envFailed,
                  images := r.2.2.1, calls := calls1 ++ r.2.2.2 }

/-! ## Concrete builder inputs used by witnesses and counterexamples -/

/-- One spec whose env image build fails deterministically. -/
def envFailBSpec : BSpec :=
  { instance_id := "i1", base_image_key := "baseA",
    env_image_key := "envA", instance_image_key := "instA" }

/-- Build oracle under which only the key envA fails to build. -/
def envFailOracle : String → Bool := fun k => !(k == "envA")

/-- One spec whose instance image build fails deterministically. -/
def instFailBSpec : BSpec :=
  { instance_id := "i2", base_image_key := "baseB",
    env_image_key := "envB", instance_image_key := "instB" }

/-- Build oracle under which only the key instB fails to build. -/
def instFailOracle : String → Bool := fun k => !(k == "instB")

/-- A spec whose three builds all succeed. -/
def okBSpec : BSpec :=
  { instance_id := "i3", base_image_key := "baseC",
    env_image_key := "envC", instance_image_key := "instC" }

/-- Build oracle under which every build succeeds. -/
def allOkOracle : String → Bool := fun _ => true

/-- The outcome of the first run on `okBSpec` (used to discharge the
hypotheses of the idempotence theorem at a concrete input). -/
def okFirstRun : BuildOutcome :=
  (build_instance_images allOkOracle [] [okBSpec] false).toOption.getD
    { successful := [], failed := [], env_failed := [], images := [], calls := [] }

/-- The outcome of the run on `envFailBSpec` (used to discharge the
hypotheses of the partition theorem at a concrete input). -/
def envFailRun : BuildOutcome :=
  (build_instance_images envFailOracle [] [envFailBSpec] false).toOption.getD
    { successful := [], failed := [], env_failed := [], images := [], calls := [] }

/-- Every image key a spec list needs (base, env and instance of each spec)
is present in the image store. -/
def allBuilt (imgs : Images) (specs : List BSpec) : Prop :=
  ∀ s ∈ specs,
    imgs.contains s.base_image_key = true ∧
    imgs.contains s.env_image_key = true ∧
    imgs.contains s.instance_image_key = true

/-! ## Shallow embedding of the r2e_docker shell gateway (shell.py) -/

/-- What the underlying subprocess.run call did: returned a completed
process, raised TimeoutExpired, raised CalledProcessError (carrying the
stdout and stderr the except clause extracts from the exception), or raised
some other exception with a message. -/
inductive SubprocOutcome where
  | completed (returncode : Int) (stdout stderr : String)
  | timeoutExpired
  | calledProcessError (stdout stderr : String)
  | otherError (msg : String)
deriving DecidableEq

/-- subprocess.CompletedProcess as run_subprocess_shell returns it: these
four fields are all the record carries. -/
structure CompletedProcess where
  args : String
  returncode : Int
  stdout : String
  stderr : String
deriving DecidableEq

/-- run_subprocess_shell of shell.py: every outcome of the underlying call,
exceptions included, is encoded into a returned CompletedProcess; nothing
escapes. -/
def run_subprocess_shell (command : String) (outcome : SubprocOutcome) :
    CompletedProcess :=
  match outcome with
  | SubprocOutcome.completed rc out err =>
      { args := command, returncode := rc, stdout := out, stderr := err }
  | SubprocOutcome.timeoutExpired =>
      { args := command, returncode := 1, stdout := "Timeout", stderr := "Timeout expired" }
  | SubprocOutcome.calledProcessError out err =>
      { args := command, returncode := 1, stdout := out, stderr := err }
  | SubprocOutcome.otherError msg =>
      { args := command, returncode := 1, stdout := "", stderr := msg }

/-! ## Counting lemmas for the classification loops -/

theorem classify_pre_f2p_fst (get : String → Option String) :
    ∀ ids : List String,
      (classify_pre_f2p get ids).1 = ids.countP (preF2PCorrectP get) := by
  intro ids
  induction ids with
  | nil => rfl
  | cons tid rest ih =>
    simp only [classify_pre_f2p, List.countP_cons]
    cases hg : get tid with
    | none => simp [preF2PCorrectP, hg, ih]
    | some st =>
      by_cases hp : st == "PASSED" <;> simp [preF2PCorrectP, hg, hp, ih]

theorem classify_pre_f2p_snd (get : String → Option String) :
    ∀ ids : List String,
      (classify_pre_f2p get ids).2.1 = ids.countP (preF2PWrongP get) := by
  intro ids
  induction ids with
  | nil => rfl
  | cons tid rest ih =>
    simp only [classify_pre_f2p, List.countP_cons]
    cases hg : get tid with
    | none => simp [preF2PWrongP, hg, ih]
    | some st =>
      by_cases hp : st == "PASSED" <;> simp [preF2PWrongP, hg, hp, ih]

/-! ## Last-wins lookup lemmas for parse_log (claim C10) -/

theorem parse_log_eq_region (raw : String) :
    parse_log raw = parseStatusLines (parsedRegion raw) := by
  simp only [parse_log, parsedRegion]
  cases h : parseStartIdx (pySplitlines (stripAnsi raw)) <;> simp [h, parseStatusLines]

theorem dictGet_parseStatusLines (id : String) :
    ∀ region : List String,
      dictGet (parseStatusLines region) id = lastStatusInRegion region id := by
  intro region
  induction region with
  | nil => rfl
  | cons l rest ih =>
    simp only [parseStatusLines, lastStatusInRegion]
    cases he : lineEntry l with
    | none =>
      cases hl : lastStatusInRegion rest id <;> simp [he, hl, ih ▸ hl]
    | some e =>
      obtain ⟨tid, st⟩ := e
      cases hl : lastStatusInRegion rest id <;>
        simp [dictGet, he, hl, ih ▸ hl]

theorem statusWord_cases (cs : List Char) (st : String) (rest : List Char)
    (h : statusWord cs = some (st, rest)) :
    st = "PASSED" ∨ st = "FAILED" ∨ st = "ERROR" := by
  unfold statusWord at h
  repeat' split at h
  all_goals simp_all

theorem matchStatusLine_status (s : String) (st tid : String)
    (h : matchStatusLine s = some (st, tid)) :
    st = "PASSED" ∨ st = "FAILED" ∨ st = "ERROR" := by
  unfold matchStatusLine at h
  cases hw : statusWord s.data with
  | none => rw [hw] at h; exact absurd h (by simp)
  | some p =>
    obtain ⟨st0, rest⟩ := p
    rw [hw] at h
    simp only at h
    split at h
    · exact absurd h (by simp)
    · split at h
      · exact absurd h (by simp)
      · have hinj := Option.some.inj h
        have hst : st0 = st := congrArg Prod.fst hinj
        exact hst ▸ statusWord_cases s.data st0 rest hw

theorem lineEntry_status (l : String) (tid st : String)
    (h : lineEntry l = some (tid, st)) : st = "PASSED" ∨ st = "FAILED" := by
  unfold lineEntry at h
  split at h
  · exact absurd h (by simp)
  · cases hm : matchStatusLine (pyStrip l) with
    | none => rw [hm] at h; exact absurd h (by simp)
    | some p =>
      obtain ⟨st0, tid0⟩ := p
      rw [hm] at h
      have hinj := Option.some.inj h
      have hst : normalizeStatus st0 = st := congrArg Prod.snd hinj
      rcases matchStatusLine_status (pyStrip l) st0 tid0 hm with h1 | h1 | h1 <;>
        subst h1 <;> simp [normalizeStatus] at hst <;> subst hst <;> simp

theorem dictGet_parse_values (id st : String) :
    ∀ region : List String,
      dictGet (parseStatusLines region) id = some st →
      st = "PASSED" ∨ st = "FAILED" := by
  intro region
  induction region with
  | nil => intro h; exact absurd h (by simp [parseStatusLines, dictGet])
  | cons l rest ih =>
    intro h
    simp only [parseStatusLines] at h
    cases he : lineEntry l with
    | none => rw [he] at h; exact ih h
    | some e =>
      obtain ⟨tid0, st0⟩ := e
      rw [he] at h
      simp only [dictGet] at h
      cases hd : dictGet (parseStatusLines rest) id with
      | some v =>
        simp only [hd] at h
        have hv : v = st := by simpa using h
        exact ih (hv ▸ hd)
      | none =>
        simp only [hd] at h
        by_cases ht : tid0 = id
        · rw [if_pos ht] at h
          have hv : st0 = st := by simpa using h
          exact hv ▸ lineEntry_status l tid0 st0 he
        · rw [if_neg ht] at h
          exact absurd h (by simp)

/-- Claim C10: when the same test id occurs on several status lines of the
parsed region, the returned map holds the normalised status of the last
such line, and every status it holds is PASSED or FAILED (ERROR having
been normalised away). -/
theorem claim_C10 (raw : String) (id : String) :
    dictGet (parse_log raw) id = lastStatusInRegion (parsedRegion raw) id ∧
    ∀ st : String, dictGet (parse_log raw) id = some st →
      st = "PASSED" ∨ st = "FAILED" := by
  constructor
  · rw [parse_log_eq_region]; exact dictGet_parseStatusLines id (parsedRegion raw)
  · intro st h
    rw [parse_log_eq_region] at h
    exact dictGet_parse_values id st (parsedRegion raw) h

/-- Witness for claim C10 at a concrete output in which the id a appears
first as FAILED and then as PASSED: the map holds the last status. -/
theorem claim_C10_witness :
    dictGet (parse_log duplicateIdRaw) "a" =
        lastStatusInRegion (parsedRegion duplicateIdRaw) "a" ∧
    ("PASSED" = "PASSED" ∨ "PASSED" = "FAILED") :=
  ⟨(claim_C10 duplicateIdRaw "a").1,
   (claim_C10 duplicateIdRaw "a").2 "PASSED" (by decide)⟩

/-! ## Branch lemmas for validate_post -/

theorem validate_post_pre_fields (f2p p2p : List String) (timeout : Nat)
    (pfc ppc : Nat) (details : List String) (preOut : String) (w : RunWorld)
    (tp cl : List DockerAction) :
    (validate_post f2p p2p timeout pfc ppc details preOut w tp cl).1.pre_f2p_correct = pfc ∧
    (validate_post f2p p2p timeout pfc ppc details preOut w tp cl).1.pre_p2p_correct = ppc ∧
    (validate_post f2p p2p timeout pfc ppc details preOut w tp cl).1.pre_f2p_wrong = 0 ∧
    (validate_post f2p p2p timeout pfc ppc details preOut w tp cl).1.pre_p2p_wrong = 0 := by
  simp only [validate_post]
  split
  · simp
  · split
    · simp
    · split
      · simp
      · simp

theorem validate_post_passed (f2p p2p : List String) (timeout : Nat)
    (pfc ppc : Nat) (details : List String) (preOut : String) (w : RunWorld)
    (tp cl : List DockerAction) :
    (validate_post f2p p2p timeout pfc ppc details preOut w tp cl).1.passed = true →
      (validate_post f2p p2p timeout pfc ppc details preOut w tp cl).1.post_f2p_wrong = 0 ∧
      (validate_post f2p p2p timeout pfc ppc details preOut w tp cl).1.post_p2p_wrong = 0 ∧
      (validate_post f2p p2p timeout pfc ppc details preOut w tp cl).1.pre_raw = preOut ∧
      (validate_post f2p p2p timeout pfc ppc details preOut w tp cl).1.post_raw = w.postEval.output ∧
      parse_log w.postEval.output ≠ [] := by
  simp only [validate_post]
  split
  · intro h; simp at h
  · split
    case isTrue => intro h; simp at h
    case isFalse hpost =>
      split
      · intro _; exact ⟨by simp, by simp, by simp, by simp, hpost⟩
      · intro h; simp at h

theorem validate_post_trace (f2p p2p : List String) (timeout : Nat)
    (pfc ppc : Nat) (details : List String) (preOut : String) (w : RunWorld)
    (tp cl : List DockerAction) :
    (validate_post f2p p2p timeout pfc ppc details preOut w tp cl).2 =
      tp ++ [DockerAction.execCmd "bash /root/eval.sh"] ++ cl := by
  simp only [validate_post]
  split
  · simp
  · split
    · simp
    · split
      · simp
      · simp

/-! ## Claim C1 -/

/-- Claim C1: on every return path of validate_image, a result with passed
true has all four wrong counts equal to zero. -/
theorem claim_C1 (spec : VSpec) (timeout : Nat) (w : RunWorld) :
    (validate_image spec timeout w).1.passed = true →
      (validate_image spec timeout w).1.pre_f2p_wrong = 0 ∧
      (validate_image spec timeout w).1.pre_p2p_wrong = 0 ∧
      (validate_image spec timeout w).1.post_f2p_wrong = 0 ∧
      (validate_image spec timeout w).1.post_p2p_wrong = 0 := by
  simp only [validate_image]
  split
  · intro h; simp at h
  · split
    · intro h; simp at h
    · split
      · intro h; simp at h
      · split
        · split
          · intro h; simp at h
          · split
            · split
              · split
                · intro h; simp at h
                · intro h
                  exact ⟨(validate_post_pre_fields _ _ _ _ _ _ _ _ _ _).2.2.1,
                         (validate_post_pre_fields _ _ _ _ _ _ _ _ _ _).2.2.2,
                         (validate_post_passed _ _ _ _ _ _ _ _ _ _ h).1,
                         (validate_post_passed _ _ _ _ _ _ _ _ _ _ h).2.1⟩
              · intro h
                exact ⟨(validate_post_pre_fields _ _ _ _ _ _ _ _ _ _).2.2.1,
                       (validate_post_pre_fields _ _ _ _ _ _ _ _ _ _).2.2.2,
                       (validate_post_passed _ _ _ _ _ _ _ _ _ _ h).1,
                       (validate_post_passed _ _ _ _ _ _ _ _ _ _ h).2.1⟩
            · intro h
              exact ⟨(validate_post_pre_fields _ _ _ _ _ _ _ _ _ _).2.2.1,
                     (validate_post_pre_fields _ _ _ _ _ _ _ _ _ _).2.2.2,
                     (validate_post_passed _ _ _ _ _ _ _ _ _ _ h).1,
                     (validate_post_passed _ _ _ _ _ _ _ _ _ _ h).2.1⟩
        · intro h; simp at h

/-- Witness for claim C1: a concrete accepted run. -/
theorem claim_C1_witness :
    (validate_image passSpec 600 passWorld).1.pre_f2p_wrong = 0 ∧
    (validate_image passSpec 600 passWorld).1.pre_p2p_wrong = 0 ∧
    (validate_image passSpec 600 passWorld).1.post_f2p_wrong = 0 ∧
    (validate_image passSpec 600 passWorld).1.post_p2p_wrong = 0 :=
  claim_C1 passSpec 600 passWorld (by decide)

/-! ## Claim C9 -/

/-- Claim C9: with an empty FAIL_TO_PASS set, validate_image returns at
once with passed false and the exact reason, all count fields zero, both
raw outputs empty, and an empty action trace - in particular no container
is created or started. -/
theorem claim_C9 (spec : VSpec) (timeout : Nat) (w : RunWorld)
    (h : spec.fail_to_pass = []) :
    validate_image spec timeout w =
      ({ passed := false, reason := "no FAIL_TO_PASS tests defined" }, []) := by
  simp only [validate_image, h, List.dedup_nil]
  rw [if_pos trivial]

/-- Witness for claim C9 at a concrete descriptor with no F2P tests. -/
theorem claim_C9_witness :
    validate_image emptyF2PSpec 600 passWorld =
      ({ passed := false, reason := "no FAIL_TO_PASS tests defined" }, []) :=
  claim_C9 emptyF2PSpec 600 passWorld rfl

/-! ## Claim C2 -/

/-- Claim C2, corrected: in the pre-patch classification of validate_image,
an F2P id is counted correct exactly when its parsed status is present and
not PASSED, and counted wrong exactly when it is absent or PASSED - an F2P
id missing from the parsed pre-patch output counts as wrong, not correct. -/
theorem claim_C2 (spec : VSpec) (timeout : Nat) (w : RunWorld)
    (h1 : w.preEval.timed_out = false)
    (h2 : parse_log w.preEval.output ≠ []) :
    (validate_image spec timeout w).1.pre_f2p_correct =
      spec.fail_to_pass.dedup.countP
        (preF2PCorrectP (dictGet (parse_log w.preEval.output))) ∧
    (validate_image spec timeout w).1.pre_f2p_wrong =
      spec.fail_to_pass.dedup.countP
        (preF2PWrongP (dictGet (parse_log w.preEval.output))) := by
  simp only [validate_image]
  by_cases hf : spec.fail_to_pass.dedup = []
  · rw [if_pos hf]
    simp [hf]
  · rw [if_neg hf, if_neg (by simp [h1]), if_neg h2]
    by_cases hs1 :
        (classify_pre_f2p (dictGet (parse_log w.preEval.output))
           spec.fail_to_pass.dedup).2.1 = 0 ∧
        (classify_pre_p2p (dictGet (parse_log w.preEval.output))
           spec.pass_to_pass.dedup).2.1 = 0
    · rw [if_pos hs1]
      by_cases hg : spec.patch = ""
      · rw [if_pos hg]
        exact ⟨classify_pre_f2p_fst _ _,
               by rw [← classify_pre_f2p_snd]; exact hs1.1.symm⟩
      · rw [if_neg hg]
        by_cases hA : w.applyGit.exit_code ≠ 0
        · rw [if_pos hA]
          by_cases hB : w.applyGitReject.exit_code ≠ 0
          · rw [if_pos hB]
            by_cases hC : w.applyPatchCmd.exit_code ≠ 0
            · rw [if_pos hC]
              exact ⟨classify_pre_f2p_fst _ _,
                     by rw [← classify_pre_f2p_snd]; exact hs1.1.symm⟩
            · rw [if_neg hC]
              refine ⟨?_, ?_⟩
              · rw [(validate_post_pre_fields _ _ _ _ _ _ _ _ _ _).1]
                exact classify_pre_f2p_fst _ _
              · rw [(validate_post_pre_fields _ _ _ _ _ _ _ _ _ _).2.2.1]
                rw [← classify_pre_f2p_snd]; exact hs1.1.symm
          · rw [if_neg hB]
            refine ⟨?_, ?_⟩
            · rw [(validate_post_pre_fields _ _ _ _ _ _ _ _ _ _).1]
              exact classify_pre_f2p_fst _ _
            · rw [(validate_post_pre_fields _ _ _ _ _ _ _ _ _ _).2.2.1]
              rw [← classify_pre_f2p_snd]; exact hs1.1.symm
        · rw [if_neg hA]
          refine ⟨?_, ?_⟩
          · rw [(validate_post_pre_fields _ _ _ _ _ _ _ _ _ _).1]
            exact classify_pre_f2p_fst _ _
          · rw [(validate_post_pre_fields _ _ _ _ _ _ _ _ _ _).2.2.1]
            rw [← classify_pre_f2p_snd]; exact hs1.1.symm
    · rw [if_neg hs1]
      exact ⟨classify_pre_f2p_fst _ _, classify_pre_f2p_snd _ _⟩

/-- Counterexample to claim C2 as stated: with F2P = [t1] and a parsed
pre-patch output containing only t2, the claimed counting rule (absent or
not PASSED counts as correct) predicts one correct F2P test, but the code
counts zero correct (and one wrong). -/
theorem claim_C2_counterexample :
    (validate_image passSpec 600 missingF2PWorld).1.pre_f2p_correct ≠
      passSpec.fail_to_pass.dedup.countP
        (preF2PAbsentOrNotPassedP
          (dictGet (parse_log missingF2PWorld.preEval.output))) := by
  decide

/-- Witness for claim C2 at the same concrete run. -/
theorem claim_C2_witness :
    (validate_image passSpec 600 missingF2PWorld).1.pre_f2p_correct =
      passSpec.fail_to_pass.dedup.countP
        (preF2PCorrectP (dictGet (parse_log missingF2PWorld.preEval.output))) ∧
    (validate_image passSpec 600 missingF2PWorld).1.pre_f2p_wrong =
      passSpec.fail_to_pass.dedup.countP
        (preF2PWrongP (dictGet (parse_log missingF2PWorld.preEval.output))) :=
  claim_C2 passSpec 600 missingF2PWorld (by decide) (by decide)

/-! ## Claim C5 -/

theorem any_or_of_any_left (lines : List String) (p q : String → Bool)
    (h : lines.any p = true) : lines.any (fun l => p l || q l) = true := by
  rcases List.any_eq_true.mp h with ⟨l, hl, hp⟩
  exact List.any_eq_true.mpr ⟨l, hl, by simp [hp]⟩

theorem any_or_of_any_right (lines : List String) (p q : String → Bool)
    (h : lines.any q = true) : lines.any (fun l => p l || q l) = true := by
  rcases List.any_eq_true.mp h with ⟨l, hl, hq⟩
  exact List.any_eq_true.mpr ⟨l, hl, by simp [hq]⟩

theorem findRegionAux_fst_isSome :
    ∀ (lines : List String) (i : Nat) (s0 : Option Nat),
      (findRegionAux lines i s0).1.isSome = true →
      s0.isSome = true ∨
        lines.any (fun l => strContains l START_TEST_OUTPUT) = true := by
  intro lines
  induction lines with
  | nil => intro i s0 h; left; simpa [findRegionAux] using h
  | cons l rest ih =>
    intro i s0 h
    simp only [findRegionAux] at h
    by_cases hS : strContains l START_TEST_OUTPUT = true
    · right; simp [List.any_cons, hS]
    · have hS' : strContains l START_TEST_OUTPUT = false := by
        simpa using hS
      by_cases hE : strContains l END_TEST_OUTPUT = true
      · simp [hS', hE] at h
        left; exact h
      · have hE' : strContains l END_TEST_OUTPUT = false := by simpa using hE
        simp [hS', hE'] at h
        rcases ih (i + 1) s0 h with h' | h'
        · left; exact h'
        · right; simp [List.any_cons, h']

theorem findFallbackAux_isSome :
    ∀ (lines : List String) (i : Nat),
      (findFallbackAux lines i).isSome = true →
      lines.any (fun l => strContains l FALLBACK_MARKER) = true := by
  intro lines
  induction lines with
  | nil => intro i h; simp [findFallbackAux] at h
  | cons l rest ih =>
    intro i h
    simp only [findFallbackAux] at h
    by_cases hF : strContains l FALLBACK_MARKER = true
    · simp [List.any_cons, hF]
    · have hF' : strContains l FALLBACK_MARKER = false := by simpa using hF
      simp [hF'] at h
      simp [List.any_cons, hF', ih (i + 1) h]

theorem parse_log_ne_nil_hasMarker (raw : String) (h : parse_log raw ≠ []) :
    hasParseMarker raw = true := by
  unfold hasParseMarker
  by_cases hS : parseStartIdx (pySplitlines (stripAnsi raw)) = none
  · exact absurd (by simp [parse_log, hS]) h
  · cases hR : (findRegionAux (pySplitlines (stripAnsi raw)) 0 none).1 with
    | some j =>
      rcases findRegionAux_fst_isSome (pySplitlines (stripAnsi raw)) 0 none
          (by simp [hR]) with h' | h'
      · simp at h'
      · exact any_or_of_any_left _ _ _ h'
    | none =>
      have hFB : (findFallbackAux (pySplitlines (stripAnsi raw)) 0).isSome = true := by
        rw [Option.isSome_iff_ne_none]
        intro hnone
        exact hS (by simp [parseStartIdx, hR, hnone])
      exact any_or_of_any_right _ _ _ (findFallbackAux_isSome _ 0 hFB)

/-- Claim C5, corrected: a result validate_image accepts has raw outputs
from which parse_log extracted a non-empty map, which requires each output
(after ANSI stripping) to have a line containing the START sentinel or the
pytest fallback marker - but not necessarily the sentinels themselves,
because of the parser fallback. -/
theorem claim_C5 (spec : VSpec) (timeout : Nat) (w : RunWorld) :
    (validate_image spec timeout w).1.passed = true →
      hasParseMarker (validate_image spec timeout w).1.pre_raw = true ∧
      hasParseMarker (validate_image spec timeout w).1.post_raw = true := by
  simp only [validate_image]
  by_cases hf : spec.fail_to_pass.dedup = []
  · rw [if_pos hf]; intro h; simp at h
  · rw [if_neg hf]
    by_cases ht : w.preEval.timed_out = true
    · rw [if_pos ht]; intro h; simp at h
    · rw [if_neg ht]
      by_cases hpre : parse_log w.preEval.output = []
      · rw [if_pos hpre]; intro h; simp at h
      · rw [if_neg hpre]
        by_cases hs1 :
            (classify_pre_f2p (dictGet (parse_log w.preEval.output))
               spec.fail_to_pass.dedup).2.1 = 0 ∧
            (classify_pre_p2p (dictGet (parse_log w.preEval.output))
               spec.pass_to_pass.dedup).2.1 = 0
        · rw [if_pos hs1]
          by_cases hg : spec.patch = ""
          · rw [if_pos hg]; intro h; simp at h
          · rw [if_neg hg]
            by_cases hA : w.applyGit.exit_code ≠ 0
            · rw [if_pos hA]
              by_cases hB : w.applyGitReject.exit_code ≠ 0
              · rw [if_pos hB]
                by_cases hC : w.applyPatchCmd.exit_code ≠ 0
                · rw [if_pos hC]; intro h; simp at h
                · rw [if_neg hC]; intro h
                  have hvp := validate_post_passed _ _ _ _ _ _ _ _ _ _ h
                  refine ⟨?_, ?_⟩
                  · rw [hvp.2.2.1]; exact parse_log_ne_nil_hasMarker _ hpre
                  · rw [hvp.2.2.2.1]
                    exact parse_log_ne_nil_hasMarker _ hvp.2.2.2.2
              · rw [if_neg hB]; intro h
                have hvp := validate_post_passed _ _ _ _ _ _ _ _ _ _ h
                refine ⟨?_, ?_⟩
                · rw [hvp.2.2.1]; exact parse_log_ne_nil_hasMarker _ hpre
                · rw [hvp.2.2.2.1]
                  exact parse_log_ne_nil_hasMarker _ hvp.2.2.2.2
            · rw [if_neg hA]; intro h
              have hvp := validate_post_passed _ _ _ _ _ _ _ _ _ _ h
              refine ⟨?_, ?_⟩
              · rw [hvp.2.2.1]; exact parse_log_ne_nil_hasMarker _ hpre
              · rw [hvp.2.2.2.1]
                exact parse_log_ne_nil_hasMarker _ hvp.2.2.2.2
        · rw [if_neg hs1]; intro h; simp at h

/-- Counterexample to claim C5 as stated: a run accepted through the pytest
fallback marker whose raw outputs contain neither sentinel. -/
theorem claim_C5_counterexample :
    (validate_image passSpec 600 fallbackWorld).1.passed = true ∧
    strContains (validate_image passSpec 600 fallbackWorld).1.pre_raw
      START_TEST_OUTPUT = false ∧
    strContains (validate_image passSpec 600 fallbackWorld).1.pre_raw
      END_TEST_OUTPUT = false ∧
    strContains (validate_image passSpec 600 fallbackWorld).1.post_raw
      START_TEST_OUTPUT = false ∧
    strContains (validate_image passSpec 600 fallbackWorld).1.post_raw
      END_TEST_OUTPUT = false := by
  decide

/-- Witness for claim C5 at a concrete accepted run. -/
theorem claim_C5_witness :
    hasParseMarker (validate_image passSpec 600 passWorld).1.pre_raw = true ∧
    hasParseMarker (validate_image passSpec 600 passWorld).1.post_raw = true :=
  claim_C5 passSpec 600 passWorld (by decide)

/-! ## Claim C6 -/

/-- Claim C6: once step 1 has passed, an empty gold patch is a hard failure
with the exact reason and no patch command attempted; otherwise the three
apply commands are attempted in order, stopping at the first zero exit
code; and when all three exit nonzero the validation hard-fails with the
last attempt output truncated to 500 characters in the reason. -/
theorem claim_C6 (spec : VSpec) (timeout : Nat) (w : RunWorld)
    (h0 : spec.fail_to_pass ≠ [])
    (h1 : w.preEval.timed_out = false)
    (h2 : parse_log w.preEval.output ≠ [])
    (h3 : (classify_pre_f2p (dictGet (parse_log w.preEval.output))
             spec.fail_to_pass.dedup).2.1 = 0)
    (h4 : (classify_pre_p2p (dictGet (parse_log w.preEval.output))
             spec.pass_to_pass.dedup).2.1 = 0) :
    (spec.patch = "" →
       (validate_image spec timeout w).1.passed = false ∧
       (validate_image spec timeout w).1.reason =
         "no gold patch available for step 2" ∧
       (validate_image spec timeout w).2.filterMap getExecRun = []) ∧
    (spec.patch ≠ "" →
       (validate_image spec timeout w).2.filterMap getExecRun =
         specApplyAttempts w) ∧
    (spec.patch ≠ "" → w.applyGit.exit_code ≠ 0 →
       w.applyGitReject.exit_code ≠ 0 → w.applyPatchCmd.exit_code ≠ 0 →
       (validate_image spec timeout w).1.passed = false ∧
       (validate_image spec timeout w).1.reason =
         "could not apply gold patch: " ++ w.applyPatchCmd.output.take 500) := by
  simp only [validate_image]
  rw [if_neg (by simpa [List.dedup_eq_nil] using h0)]
  rw [if_neg (by simp [h1])]
  rw [if_neg h2]
  rw [if_pos ⟨h3, h4⟩]
  refine ⟨?_, ?_, ?_⟩
  · intro hg
    rw [if_pos hg]
    exact ⟨rfl, rfl, by simp [getExecRun]⟩
  · intro hg
    rw [if_neg hg]
    by_cases hA : w.applyGit.exit_code = 0
    · rw [if_neg (by simp [hA])]
      rw [validate_post_trace]
      simp [getExecRun, specApplyAttempts, hA]
    · rw [if_pos hA]
      by_cases hB : w.applyGitReject.exit_code = 0
      · rw [if_neg (by simp [hB])]
        rw [validate_post_trace]
        simp [getExecRun, specApplyAttempts, hA, hB]
      · rw [if_pos hB]
        by_cases hC : w.applyPatchCmd.exit_code = 0
        · rw [if_neg (by simp [hC])]
          rw [validate_post_trace]
          simp [getExecRun, specApplyAttempts, hA, hB, hC]
        · rw [if_pos hC]
          simp [getExecRun, specApplyAttempts, hA, hB, hC]
  · intro hg hA hB hC
    rw [if_neg hg, if_pos hA, if_pos hB, if_pos hC]
    exact ⟨rfl, rfl⟩

/-- Witness for claim C6 at a concrete run in which step 1 passes and all
three patch application attempts fail. -/
theorem claim_C6_witness :
    (validate_image passSpec 600 applyFailWorld).2.filterMap getExecRun =
      specApplyAttempts applyFailWorld ∧
    (validate_image passSpec 600 applyFailWorld).1.passed = false ∧
    (validate_image passSpec 600 applyFailWorld).1.reason =
      "could not apply gold patch: " ++
        applyFailWorld.applyPatchCmd.output.take 500 := by
  have H := claim_C6 passSpec 600 applyFailWorld (by decide) (by decide)
    (by decide) (by decide) (by decide)
  refine ⟨H.2.1 (by decide), ?_, ?_⟩
  · exact (H.2.2 (by decide) (by decide) (by decide) (by decide)).1
  · exact (H.2.2 (by decide) (by decide) (by decide) (by decide)).2

/-! ## Claim C8 -/

/-- Claim C8, corrected: run_subprocess_shell never raises - every outcome
of the underlying call, subprocess failure and timeout included, is encoded
into a returned CompletedProcess with fields args, returncode, stdout and
stderr; on timeout the returned record is (returncode 1, stdout Timeout,
stderr Timeout expired). The record carries no timed_out field, and the
code performs no process-group termination of its own. -/
theorem claim_C8 (command : String) (outcome : SubprocOutcome) :
    (run_subprocess_shell command outcome).args = command ∧
    run_subprocess_shell command SubprocOutcome.timeoutExpired =
      { args := command, returncode := 1, stdout := "Timeout",
        stderr := "Timeout expired" } := by
  cases outcome <;> exact ⟨rfl, rfl⟩

/-- Counterexample to claim C8 as stated: a timed-out run returns a record
identical to that of a normal completion that exited with code 1 printing
the same strings, so the returned value contains no timed_out field (the
claimed timed_out = true on timeout does not exist in the return type,
which is a plain CompletedProcess). -/
theorem claim_C8_counterexample :
    run_subprocess_shell "sleep 5" SubprocOutcome.timeoutExpired =
      run_subprocess_shell "sleep 5"
        (SubprocOutcome.completed 1 "Timeout" "Timeout expired") := rfl

/-! ## Claim C4 -/

theorem instLoop_length (ok : String → Bool) (force : Bool) :
    ∀ (specs : List BSpec) (imgs : Images),
      (instLoop ok force imgs specs).1.length +
        (instLoop ok force imgs specs).2.1.length = specs.length := by
  intro specs
  induction specs with
  | nil => intro imgs; rfl
  | cons s rest ih =>
    intro imgs
    simp only [instLoop]
    by_cases h1 : (imageExists imgs s.instance_image_key && !force) = true
    · rw [if_pos h1]
      simp only [List.length_cons]
      have := ih imgs
      omega
    · rw [if_neg h1]
      by_cases hok : ok s.instance_image_key = true
      · rw [if_pos hok]
        simp only [List.length_cons]
        have := ih (addImage imgs s.instance_image_key)
        omega
      · rw [if_neg hok]
        simp only [List.length_cons]
        have := ih imgs
        omega

/-- Claim C4, corrected: build_instance_images terminates and partitions
exactly the descriptors whose env image key did not fail: the sizes of the
successful and failed partitions sum to the number of those descriptors.
Descriptors whose env image failed to build are skipped and appear in
neither partition. -/
theorem claim_C4 (ok : String → Bool) (imgs : Images) (specs : List BSpec)
    (force : Bool) (o : BuildOutcome)
    (h : build_instance_images ok imgs specs force = Except.ok o) :
    o.successful.length + o.failed.length =
      (specs.filter (fun s => !(o.env_failed.contains s.env_image_key))).length := by
  unfold build_instance_images at h
  cases he : build_env_images ok imgs specs force with
  | error m => rw [he] at h; simp at h
  | ok t =>
    obtain ⟨imgs1, envFailed, calls1⟩ := t
    rw [he] at h
    simp only [Except.ok.injEq] at h
    subst h
    exact instLoop_length ok force _ imgs1

/-- Witness for claim C4 at a concrete run whose single descriptor has a
failing env build. -/
theorem claim_C4_witness :
    envFailRun.successful.length + envFailRun.failed.length =
      ([envFailBSpec].filter
        (fun s => !(envFailRun.env_failed.contains s.env_image_key))).length :=
  claim_C4 envFailOracle [] [envFailBSpec] false envFailRun (by rfl)

/-- Counterexample to claim C4 as stated: with one descriptor whose env
image fails to build, both partitions are empty, so their sizes sum to 0,
not to the input size 1 - the descriptor lands in neither partition. -/
theorem claim_C4_counterexample :
    (build_instance_images envFailOracle [] [envFailBSpec] false).toOption.map
      (fun o => decide (o.successful.length + o.failed.length =
        ([envFailBSpec] : List BSpec).length)) = some false := by
  rfl

/-! ## Image store and key collection lemmas (toward claim C7) -/

theorem contains_true_iff (l : List String) (k : String) :
    l.contains k = true ↔ k ∈ l := by
  simp

theorem contains_addImage (imgs : Images) (k k' : String)
    (h : imgs.contains k = true) : (addImage imgs k').contains k = true := by
  unfold addImage
  split
  · exact h
  · rw [contains_true_iff] at h ⊢
    exact List.mem_append_left _ h

theorem contains_addImage_self (imgs : Images) (k : String) :
    (addImage imgs k).contains k = true := by
  unfold addImage
  split
  case isTrue h => exact h
  case isFalse h =>
    rw [contains_true_iff]
    exact List.mem_append_right _ (List.mem_singleton_self k)

theorem buildBasesLoop_mono (ok : String → Bool) :
    ∀ (ks : List String) (imgs i2 : Images) (cs : List String) (k : String),
      buildBasesLoop ok false imgs ks = Except.ok (i2, cs) →
      imgs.contains k = true → i2.contains k = true := by
  intro ks
  induction ks with
  | nil =>
    intro imgs i2 cs k h hk
    simp only [buildBasesLoop, Except.ok.injEq, Prod.mk.injEq] at h
    exact h.1 ▸ hk
  | cons k' ks ih =>
    intro imgs i2 cs k h hk
    simp only [buildBasesLoop, Bool.not_false, Bool.and_true] at h
    by_cases hex : imageExists imgs k' = true
    · rw [if_pos hex] at h
      exact ih imgs i2 cs k h hk
    · rw [if_neg hex] at h
      rw [if_neg hex] at h
      by_cases hok : ok k' = true
      · rw [if_pos hok] at h
        cases hrec : buildBasesLoop ok false (addImage imgs k') ks with
        | error m => rw [hrec] at h; simp at h
        | ok t =>
          obtain ⟨i2', cs'⟩ := t
          rw [hrec] at h
          simp only [Except.ok.injEq, Prod.mk.injEq] at h
          exact h.1 ▸ ih _ _ _ k hrec (contains_addImage imgs k k' hk)
      · rw [if_neg hok] at h
        simp at h

theorem buildBasesLoop_built (ok : String → Bool) :
    ∀ (ks : List String) (imgs i2 : Images) (cs : List String),
      buildBasesLoop ok false imgs ks = Except.ok (i2, cs) →
      ∀ k ∈ ks, i2.contains k = true := by
  intro ks
  induction ks with
  | nil => intro imgs i2 cs _ k hk; exact absurd hk (List.not_mem_nil k)
  | cons k' ks ih =>
    intro imgs i2 cs h k hk
    simp only [buildBasesLoop, Bool.not_false, Bool.and_true] at h
    by_cases hex : imageExists imgs k' = true
    · rw [if_pos hex] at h
      rcases List.mem_cons.mp hk with rfl | hk'
      · exact buildBasesLoop_mono ok ks imgs i2 cs k h hex
      · exact ih imgs i2 cs h k hk'
    · rw [if_neg hex] at h
      rw [if_neg hex] at h
      by_cases hok : ok k' = true
      · rw [if_pos hok] at h
        cases hrec : buildBasesLoop ok false (addImage imgs k') ks with
        | error m => rw [hrec] at h; simp at h
        | ok t =>
          obtain ⟨i2', cs'⟩ := t
          rw [hrec] at h
          simp only [Except.ok.injEq, Prod.mk.injEq] at h
          rcases List.mem_cons.mp hk with rfl | hk'
          · exact h.1 ▸
              buildBasesLoop_mono ok ks _ _ _ k hrec (contains_addImage_self imgs k)
          · exact h.1 ▸ ih _ _ _ hrec k hk'
      · rw [if_neg hok] at h
        simp at h

theorem buildBasesLoop_skip (ok : String → Bool) :
    ∀ (ks : List String) (imgs : Images),
      (∀ k ∈ ks, imgs.contains k = true) →
      buildBasesLoop ok false imgs ks = Except.ok (imgs, []) := by
  intro ks
  induction ks with
  | nil => intro imgs _; rfl
  | cons k' ks ih =>
    intro imgs h
    simp only [buildBasesLoop, Bool.not_false, Bool.and_true]
    rw [if_pos (show imageExists imgs k' = true from h k' (List.mem_cons_self k' ks))]
    exact ih imgs (fun k hk => h k (List.mem_cons_of_mem k' hk))

theorem uniqueKeysAux_sub (f : BSpec → String) :
    ∀ (specs : List BSpec) (acc : List String) (k : String),
      acc.contains k = true → (uniqueKeysAux f acc specs).contains k = true := by
  intro specs
  induction specs with
  | nil => intro acc k h; exact h
  | cons s rest ih =>
    intro acc k h
    simp only [uniqueKeysAux]
    split
    · exact ih acc k h
    · refine ih (acc ++ [f s]) k ?_
      rw [contains_true_iff] at h ⊢
      exact List.mem_append_left _ h

theorem uniqueKeysAux_mem (f : BSpec → String) :
    ∀ (specs : List BSpec) (acc : List String) (s : BSpec), s ∈ specs →
      (uniqueKeysAux f acc specs).contains (f s) = true := by
  intro specs
  induction specs with
  | nil => intro acc s hs; exact absurd hs (List.not_mem_nil s)
  | cons s' rest ih =>
    intro acc s hs
    simp only [uniqueKeysAux]
    rcases List.mem_cons.mp hs with rfl | hs'
    · split
      case isTrue h => exact uniqueKeysAux_sub f rest acc (f s) h
      case isFalse h =>
        refine uniqueKeysAux_sub f rest (acc ++ [f s]) (f s) ?_
        rw [contains_true_iff]
        exact List.mem_append_right _ (List.mem_singleton_self (f s))
    · split
      · exact ih acc s hs'
      · exact ih (acc ++ [f s']) s hs'

theorem uniqueKeysAux_src (f : BSpec → String) :
    ∀ (specs : List BSpec) (acc : List String) (k : String),
      (uniqueKeysAux f acc specs).contains k = true →
      acc.contains k = true ∨ ∃ s ∈ specs, f s = k := by
  intro specs
  induction specs with
  | nil => intro acc k h; exact Or.inl h
  | cons s rest ih =>
    intro acc k h
    simp only [uniqueKeysAux] at h
    by_cases hc : acc.contains (f s) = true
    · rw [if_pos hc] at h
      rcases ih acc k h with h' | ⟨t, ht, hf⟩
      · exact Or.inl h'
      · exact Or.inr ⟨t, List.mem_cons_of_mem s ht, hf⟩
    · rw [if_neg hc] at h
      rcases ih (acc ++ [f s]) k h with h' | ⟨t, ht, hf⟩
      · rw [contains_true_iff] at h'
        rcases List.mem_append.mp h' with h'' | h''
        · exact Or.inl ((contains_true_iff acc k).mpr h'')
        · exact Or.inr ⟨s, List.mem_cons_self s rest,
            (List.mem_singleton.mp h'').symm⟩
      · exact Or.inr ⟨t, List.mem_cons_of_mem s ht, hf⟩

/-! ## Env plan, env build and instance loop lemmas (toward claim C7) -/

theorem envPlanLoop_images :
    ∀ (specs : List BSpec) (imgs : Images) (acc : List String),
      (envPlanLoop false imgs acc specs).2 = imgs := by
  intro specs
  induction specs with
  | nil => intro imgs acc; rfl
  | cons s rest ih =>
    intro imgs acc
    simp only [envPlanLoop]
    by_cases h1 : acc.contains s.env_image_key = true
    · rw [if_pos h1]; exact ih imgs acc
    · rw [if_neg h1]
      by_cases h2 : imageExists imgs s.env_image_key = true
      · rw [if_pos (by simp [h2])]
        exact ih imgs acc
      · rw [if_neg (by simp [h2]), if_neg (by simp)]
        exact ih imgs (acc ++ [s.env_image_key])

theorem envPlanLoop_acc_sub :
    ∀ (specs : List BSpec) (imgs : Images) (acc : List String) (k : String),
      acc.contains k = true →
      (envPlanLoop false imgs acc specs).1.contains k = true := by
  intro specs
  induction specs with
  | nil => intro imgs acc k h; exact h
  | cons s rest ih =>
    intro imgs acc k h
    simp only [envPlanLoop]
    by_cases h1 : acc.contains s.env_image_key = true
    · rw [if_pos h1]; exact ih imgs acc k h
    · rw [if_neg h1]
      by_cases h2 : imageExists imgs s.env_image_key = true
      · rw [if_pos (by simp [h2])]
        exact ih imgs acc k h
      · rw [if_neg (by simp [h2]), if_neg (by simp)]
        refine ih imgs (acc ++ [s.env_image_key]) k ?_
        rw [contains_true_iff] at h ⊢
        exact List.mem_append_left _ h

theorem envPlanLoop_covers :
    ∀ (specs : List BSpec) (imgs : Images) (acc : List String) (s : BSpec),
      s ∈ specs →
      imgs.contains s.env_image_key = true ∨
      (envPlanLoop false imgs acc specs).1.contains s.env_image_key = true := by
  intro specs
  induction specs with
  | nil => intro imgs acc s hs; exact absurd hs (List.not_mem_nil s)
  | cons s' rest ih =>
    intro imgs acc s hs
    simp only [envPlanLoop]
    rcases List.mem_cons.mp hs with rfl | hs'
    · by_cases h1 : acc.contains s.env_image_key = true
      · rw [if_pos h1]
        exact Or.inr (envPlanLoop_acc_sub rest imgs acc _ h1)
      · rw [if_neg h1]
        by_cases h2 : imageExists imgs s.env_image_key = true
        · exact Or.inl h2
        · rw [if_neg (by simp [h2]), if_neg (by simp)]
          refine Or.inr (envPlanLoop_acc_sub rest imgs (acc ++ [s.env_image_key]) _ ?_)
          rw [contains_true_iff]
          exact List.mem_append_right _ (List.mem_singleton_self _)
    · by_cases h1 : acc.contains s'.env_image_key = true
      · rw [if_pos h1]; exact ih imgs acc s hs'
      · rw [if_neg h1]
        by_cases h2 : imageExists imgs s'.env_image_key = true
        · rw [if_pos (by simp [h2])]; exact ih imgs acc s hs'
        · rw [if_neg (by simp [h2]), if_neg (by simp)]
          exact ih imgs (acc ++ [s'.env_image_key]) s hs'

theorem envPlanLoop_skip :
    ∀ (specs : List BSpec) (imgs : Images) (acc : List String),
      (∀ s ∈ specs, imgs.contains s.env_image_key = true) →
      envPlanLoop false imgs acc specs = (acc, imgs) := by
  intro specs
  induction specs with
  | nil => intro imgs acc _; rfl
  | cons s rest ih =>
    intro imgs acc h
    simp only [envPlanLoop]
    by_cases h1 : acc.contains s.env_image_key = true
    · rw [if_pos h1]
      exact ih imgs acc (fun t ht => h t (List.mem_cons_of_mem s ht))
    · rw [if_neg h1]
      rw [if_pos (by simp [imageExists,
        (contains_true_iff imgs s.env_image_key).mp (h s (List.mem_cons_self s rest))])]
      exact ih imgs acc (fun t ht => h t (List.mem_cons_of_mem s ht))

theorem envBuildLoop_mono (ok : String → Bool) :
    ∀ (ks : List String) (imgs : Images) (k : String),
      imgs.contains k = true →
      (envBuildLoop ok imgs ks).1.contains k = true := by
  intro ks
  induction ks with
  | nil => intro imgs k h; exact h
  | cons k' ks ih =>
    intro imgs k h
    simp only [envBuildLoop]
    by_cases hok : ok k' = true
    · rw [if_pos hok]
      exact ih (addImage imgs k') k (contains_addImage imgs k k' h)
    · rw [if_neg hok]
      exact ih imgs k h

theorem envBuildLoop_covers (ok : String → Bool) :
    ∀ (ks : List String) (imgs : Images) (k : String), k ∈ ks →
      (envBuildLoop ok imgs ks).1.contains k = true ∨
      k ∈ (envBuildLoop ok imgs ks).2.1 := by
  intro ks
  induction ks with
  | nil => intro imgs k hk; exact absurd hk (List.not_mem_nil k)
  | cons k' ks ih =>
    intro imgs k hk
    simp only [envBuildLoop]
    rcases List.mem_cons.mp hk with rfl | hk'
    · by_cases hok : ok k = true
      · rw [if_pos hok]
        exact Or.inl (envBuildLoop_mono ok ks _ k (contains_addImage_self imgs k))
      · rw [if_neg hok]
        exact Or.inr (List.mem_cons_self k _)
    · by_cases hok : ok k' = true
      · rw [if_pos hok]
        exact ih (addImage imgs k') k hk'
      · rw [if_neg hok]
        rcases ih imgs k hk' with h | h
        · exact Or.inl h
        · exact Or.inr (List.mem_cons_of_mem k' h)

theorem instLoop_mono (ok : String → Bool) :
    ∀ (specs : List BSpec) (imgs : Images) (k : String),
      imgs.contains k = true →
      (instLoop ok false imgs specs).2.2.1.contains k = true := by
  intro specs
  induction specs with
  | nil => intro imgs k h; exact h
  | cons s rest ih =>
    intro imgs k h
    simp only [instLoop, Bool.not_false, Bool.and_true]
    by_cases h1 : imageExists imgs s.instance_image_key = true
    · rw [if_pos h1]; exact ih imgs k h
    · rw [if_neg h1]
      by_cases hok : ok s.instance_image_key = true
      · rw [if_pos hok]
        exact ih (addImage imgs s.instance_image_key) k
          (contains_addImage imgs k s.instance_image_key h)
      · rw [if_neg hok]; exact ih imgs k h

theorem instLoop_no_failures (ok : String → Bool) :
    ∀ (specs : List BSpec) (imgs : Images),
      (instLoop ok false imgs specs).2.1 = [] →
      (instLoop ok false imgs specs).1 = specs ∧
      ∀ s ∈ specs,
        (instLoop ok false imgs specs).2.2.1.contains s.instance_image_key = true := by
  intro specs
  induction specs with
  | nil => intro imgs _; exact ⟨rfl, fun s hs => absurd hs (List.not_mem_nil s)⟩
  | cons s rest ih =>
    intro imgs hfail
    simp only [instLoop, Bool.not_false, Bool.and_true] at hfail ⊢
    by_cases h1 : imageExists imgs s.instance_image_key = true
    · rw [if_pos h1] at hfail ⊢
      obtain ⟨hsucc, hmem⟩ := ih imgs hfail
      refine ⟨?_, ?_⟩
      · show s :: (instLoop ok false imgs rest).1 = s :: rest
        rw [hsucc]
      · intro t ht
        rcases List.mem_cons.mp ht with rfl | ht'
        · exact instLoop_mono ok rest imgs _ h1
        · exact hmem t ht'
    · rw [if_neg h1] at hfail ⊢
      by_cases hok : ok s.instance_image_key = true
      · rw [if_pos hok] at hfail ⊢
        obtain ⟨hsucc, hmem⟩ := ih (addImage imgs s.instance_image_key) hfail
        refine ⟨?_, ?_⟩
        · show s :: (instLoop ok false (addImage imgs s.instance_image_key) rest).1 = s :: rest
          rw [hsucc]
        · intro t ht
          rcases List.mem_cons.mp ht with rfl | ht'
          · exact instLoop_mono ok rest _ _ (contains_addImage_self imgs _)
          · exact hmem t ht'
      · rw [if_neg hok] at hfail
        exact absurd hfail (by simp)

theorem instLoop_skip (ok : String → Bool) :
    ∀ (specs : List BSpec) (imgs : Images),
      (∀ s ∈ specs, imgs.contains s.instance_image_key = true) →
      instLoop ok false imgs specs = (specs, [], imgs, []) := by
  intro specs
  induction specs with
  | nil => intro imgs _; rfl
  | cons s rest ih =>
    intro imgs h
    simp only [instLoop, Bool.not_false, Bool.and_true]
    rw [if_pos (show imageExists imgs s.instance_image_key = true from
      h s (List.mem_cons_self s rest))]
    rw [ih imgs (fun t ht => h t (List.mem_cons_of_mem s ht))]

/-! ## Claim C7 -/

theorem build_env_images_skip (ok : String → Bool) (imgs : Images)
    (specs : List BSpec) (h : allBuilt imgs specs) :
    build_env_images ok imgs specs false = Except.ok (imgs, [], []) := by
  have hbase : build_base_images ok imgs specs false = Except.ok (imgs, []) := by
    apply buildBasesLoop_skip
    intro k hk
    rcases uniqueKeysAux_src (fun s => s.base_image_key) specs [] k
        ((contains_true_iff _ _).mpr hk) with hacc | ⟨s, hs, hf⟩
    · simp at hacc
    · exact hf ▸ (h s hs).1
  have hplan : envPlanLoop false imgs [] specs = ([], imgs) :=
    envPlanLoop_skip specs imgs [] (fun s hs => (h s hs).2.1)
  unfold build_env_images
  rw [hbase]
  simp only [hplan, envBuildLoop, List.nil_append]

theorem build_skip_all (ok : String → Bool) (imgs : Images) (specs : List BSpec)
    (h : allBuilt imgs specs) :
    build_instance_images ok imgs specs false =
      Except.ok { successful := specs, failed := [], env_failed := [],
                  images := imgs, calls := [] } := by
  have hfil :
      specs.filter (fun s => !(([] : List String).contains s.env_image_key)) = specs :=
    List.filter_eq_self.mpr (fun a _ => rfl)
  have hinst : instLoop ok false imgs specs = (specs, [], imgs, []) :=
    instLoop_skip ok specs imgs (fun s hs => (h s hs).2.2)
  unfold build_instance_images
  rw [build_env_images_skip ok imgs specs h]
  simp only [hfil, hinst, List.nil_append]

theorem build_all_built (ok : String → Bool) (imgs : Images) (specs : List BSpec)
    (o : BuildOutcome)
    (h : build_instance_images ok imgs specs false = Except.ok o)
    (hEnv : o.env_failed = []) (hFail : o.failed = []) :
    allBuilt o.images specs ∧ o.successful = specs := by
  unfold build_instance_images at h
  cases he : build_env_images ok imgs specs false with
  | error m => rw [he] at h; simp at h
  | ok t =>
    obtain ⟨i3, envF, calls1⟩ := t
    rw [he] at h
    simp only [Except.ok.injEq] at h
    subst h
    have hEnvF : envF = [] := hEnv
    subst hEnvF
    have hfil :
        specs.filter (fun s => !(([] : List String).contains s.env_image_key)) = specs :=
      List.filter_eq_self.mpr (fun a _ => rfl)
    have hFail2 :
        (instLoop ok false i3
          (specs.filter (fun s => !(([] : List String).contains s.env_image_key)))).2.1
          = [] := hFail
    rw [hfil] at hFail2
    obtain ⟨hsucc, hinstKeys⟩ := instLoop_no_failures ok specs i3 hFail2
    -- dissect build_env_images
    unfold build_env_images at he
    cases hb : build_base_images ok imgs specs false with
    | error m => rw [hb] at he; simp at he
    | ok t2 =>
      obtain ⟨i1, bc⟩ := t2
      rw [hb] at he
      simp only [Except.ok.injEq, Prod.mk.injEq] at he
      have hplan2 : (envPlanLoop false i1 [] specs).2 = i1 :=
        envPlanLoop_images specs i1 []
      have hB1 :
          (envBuildLoop ok (envPlanLoop false i1 [] specs).2
            (envPlanLoop false i1 [] specs).1).1 = i3 := he.1
      have hBF :
          (envBuildLoop ok (envPlanLoop false i1 [] specs).2
            (envPlanLoop false i1 [] specs).1).2.1 = [] := he.2.1
      rw [hplan2] at hB1 hBF
      constructor
      · intro s hs
        refine ⟨?_, ?_, ?_⟩
        · -- base key: built into i1, then monotone through env and instance stages
          have hbase : i1.contains s.base_image_key = true := by
            refine buildBasesLoop_built ok
              (uniqueKeys (fun s => s.base_image_key) specs) imgs i1 bc hb
              s.base_image_key ?_
            exact (contains_true_iff _ _).mp (uniqueKeysAux_mem _ specs [] s hs)
          have h3 : i3.contains s.base_image_key = true := by
            rw [← hB1]
            exact envBuildLoop_mono ok _ i1 _ hbase
          show (instLoop ok false i3
            (specs.filter (fun s => !(([] : List String).contains s.env_image_key)))).2.2.1.contains
              s.base_image_key = true
          rw [hfil]
          exact instLoop_mono ok specs i3 _ h3
        · -- env key: present in i1 or planned; planned keys with no failures are built
          have h3 : i3.contains s.env_image_key = true := by
            rcases envPlanLoop_covers specs i1 [] s hs with hc | hc
            · rw [← hB1]
              exact envBuildLoop_mono ok _ i1 _ hc
            · rcases envBuildLoop_covers ok (envPlanLoop false i1 [] specs).1 i1
                  s.env_image_key ((contains_true_iff _ _).mp hc) with hc2 | hc2
              · rw [← hB1]
                exact hc2
              · rw [hBF] at hc2
                exact absurd hc2 (List.not_mem_nil _)
          show (instLoop ok false i3
            (specs.filter (fun s => !(([] : List String).contains s.env_image_key)))).2.2.1.contains
              s.env_image_key = true
          rw [hfil]
          exact instLoop_mono ok specs i3 _ h3
        · -- instance key: from the no-failure instance stage
          show (instLoop ok false i3
            (specs.filter (fun s => !(([] : List String).contains s.env_image_key)))).2.2.1.contains
              s.instance_image_key = true
          rw [hfil]
          exact hinstKeys s hs
      · show (instLoop ok false i3
          (specs.filter (fun s => !(([] : List String).contains s.env_image_key)))).1 = specs
        rw [hfil]
        exact hsucc

/-- Claim C7, corrected: when the first run had no failures at all (no env
build failure and no instance build failure), a second run with
force_rebuild false, observing exactly the images left by the first run,
performs zero build calls and returns the same partition (everything
successful); when the first run had failures, the second run re-attempts
exactly the missing images, so its build call list need not be empty. -/
theorem claim_C7 (ok : String → Bool) (imgs : Images) (specs : List BSpec)
    (o1 : BuildOutcome)
    (h : build_instance_images ok imgs specs false = Except.ok o1)
    (hEnv : o1.env_failed = []) (hFail : o1.failed = []) :
    build_instance_images ok o1.images specs false =
      Except.ok { successful := specs, failed := [], env_failed := [],
                  images := o1.images, calls := [] } ∧
    o1.successful = specs := by
  obtain ⟨hall, hsucc⟩ := build_all_built ok imgs specs o1 h hEnv hFail
  exact ⟨build_skip_all ok o1.images specs hall, hsucc⟩

/-- Witness for claim C7 at a concrete fully successful first run. -/
theorem claim_C7_witness :
    build_instance_images allOkOracle okFirstRun.images [okBSpec] false =
      Except.ok { successful := [okBSpec], failed := [], env_failed := [],
                  images := okFirstRun.images, calls := [] } ∧
    okFirstRun.successful = [okBSpec] :=
  claim_C7 allOkOracle [] [okBSpec] okFirstRun (by rfl) (by rfl) (by rfl)

/-- Counterexample to claim C7 as stated: a first run whose single instance
build fails leaves only the base and env images; the second run, observing
exactly those images, performs a build call (it retries the missing
instance image), so the build call count of the second run is not zero. -/
theorem claim_C7_counterexample :
    (build_instance_images instFailOracle [] [instFailBSpec] false).toOption.map
        (fun o => o.images) = some ["baseB", "envB"] ∧
    (build_instance_images instFailOracle ["baseB", "envB"] [instFailBSpec]
        false).toOption.map (fun o => o.calls) = some ["instB"] :=
  ⟨rfl, rfl⟩

end ImageBuilder
